import Mathlib

/-!
Shallow embedding of the uniproxy forward-proxy framework, used to settle
the frozen claims about routing, hedged outbound connects, connection ids,
certificate minting and the certificate cache, HTTP error statuses, and
error detail sanitization.

Each definition is translated from the TypeScript source file it names.
JavaScript regular expressions are kept abstract: a compile function
(modelling the RegExp constructor with flags gi, whose test is
case-insensitive) is passed as a parameter; compilation returning none
models the SyntaxError thrown on an invalid pattern.
-/

namespace Uniproxy

/-- Upstream proxy descriptor, from commons.ts (interface ProxyUpstream).
Optional fields are modelled with Option; an absent JS property is none. -/
structure ProxyUpstream where
  host : String
  username : Option String
  password : Option String
  useHttps : Option Bool
deriving DecidableEq, Repr

/-- A routing table entry, from the routing-proxy revision that stores the
pattern as a string (interface ProxyRoute). -/
structure ProxyRoute where
  label : String
  hostPattern : String
  upstream : Option ProxyUpstream
deriving DecidableEq, Repr

/-- Argument of insertRoute, from the same revision (interface
ProxyInsertRouteSpec): the label is optional. -/
structure ProxyInsertRouteSpec where
  label : Option String
  hostPattern : String
  upstream : Option ProxyUpstream
deriving DecidableEq, Repr

/-- The default route label used when the spec omits one. -/
def defaultLabel : String := "default"

/-- The route record built by insertRoute: spread of the spec over a
default label, from RoutingProxy.insertRoute. -/
def mkRoute (spec : ProxyInsertRouteSpec) : ProxyRoute :=
  { label := spec.label.getD defaultLabel
    hostPattern := spec.hostPattern
    upstream := spec.upstream }

/-- RoutingProxy.insertRoute: routes.splice(index, 0, route).  The splice
index is clamped to the list length, which take and drop do naturally. -/
def insertRoute (routes : List ProxyRoute) (spec : ProxyInsertRouteSpec)
    (index : Nat) : List ProxyRoute :=
  routes.take index ++ [mkRoute spec] ++ routes.drop index

/-- RoutingProxy.matchRoute: walk the table in order; for each route,
compile its pattern with flags gi and test it against the host; the first
match returns that route upstream, otherwise return defaultUpstream.
Compilation failure (invalid pattern) models the thrown SyntaxError as an
error result. -/
def matchRoute (compile : String → Option (String → Bool))
    (routes : List ProxyRoute) (defaultUpstream : Option ProxyUpstream)
    (host : String) : Except Unit (Option ProxyUpstream) :=
  match routes with
  | [] => Except.ok defaultUpstream
  | r :: rest =>
    match compile r.hostPattern with
    | none => Except.error ()
    | some test =>
      if test host then Except.ok r.upstream
      else matchRoute compile rest defaultUpstream host

/-- The boolean test a route performs on a host, given the compile
function (false when the pattern does not compile; only used under the
hypothesis that every pattern compiles). -/
def routeTest (compile : String → Option (String → Bool)) (host : String)
    (r : ProxyRoute) : Bool :=
  ((compile r.hostPattern).getD (fun _ => false)) host

/-- A concrete compile function for witnesses: a pattern matches exactly
the host equal to it. -/
def compileEq : String → Option (String → Bool) :=
  fun p => some (fun h => p == h)

/-- A concrete compile function for witnesses of the invalid-pattern
behaviour: no pattern compiles. -/
def compileNone : String → Option (String → Bool) :=
  fun _ => none

/-- Concrete routing-table material for witnesses. -/
def demoUpstream : ProxyUpstream :=
  { host := "proxy.local:3128", username := none, password := none,
    useHttps := none }

/-- A two-route table whose second route matches host a under compileEq. -/
def demoRoutes : List ProxyRoute :=
  [ { label := defaultLabel, hostPattern := "b", upstream := none },
    { label := defaultLabel, hostPattern := "a", upstream := some demoUpstream } ]

/-- An insert spec whose hostPattern is the string ( , which is an invalid
JavaScript regular expression (SyntaxError: missing closing parenthesis). -/
def invalidSpec : ProxyInsertRouteSpec :=
  { label := none, hostPattern := "(", upstream := none }

/-- Outcome of one outbound connection attempt of sslConnectWithRetry:
dur is the time in milliseconds from the start of the attempt until its
connect promise settles; ok is true when the outbound socket reached
connect, and false when sslProxyConnect or sslDirectConnect threw
(ProxyConnectionTimeout or ProxyConnectionFailed). -/
structure AttemptOutcome where
  dur : Nat
  ok : Bool
deriving DecidableEq, Repr

/-- Settlement state of the JavaScript promise returned by
sslConnectWithRetry; once settled it never changes (resolve and reject on
a settled promise are no-ops). The payload is the attempt index. -/
inductive RetryPromise where
  | unsettled : RetryPromise
  | resolvedWith (attempt : Nat) : RetryPromise
  | rejectedWith (attempt : Nat) : RetryPromise
deriving DecidableEq, Repr

/-- Promise resolution: only settles an unsettled promise. -/
def RetryPromise.resolveWith (p : RetryPromise) (i : Nat) : RetryPromise :=
  match p with
  | RetryPromise.unsettled => RetryPromise.resolvedWith i
  | _ => p

/-- Promise rejection: only settles an unsettled promise. -/
def RetryPromise.rejectWith (p : RetryPromise) (i : Nat) : RetryPromise :=
  match p with
  | RetryPromise.unsettled => RetryPromise.rejectedWith i
  | _ => p

/-- The mutable state of one sslConnectWithRetry call: the resolved flag,
the pending counter (decremented at the START of tryConnect, exactly as in
the source), whether the clearTimeout loop has run, the promise, the list
of attempts that have started (most recent first), and the sockets
destroyed because they connected after the race was won. -/
structure RetryState where
  resolved : Bool
  pending : Nat
  timersCancelled : Bool
  promise : RetryPromise
  started : List Nat
  destroyed : List Nat
deriving DecidableEq, Repr

/-- Initial state of sslConnectWithRetry with the given total number of
attempts (connectRetryAttempts + 1). -/
def initRetryState (totalAttempts : Nat) : RetryState :=
  { resolved := false, pending := totalAttempts, timersCancelled := false,
    promise := RetryPromise.unsettled, started := [], destroyed := [] }

/-- An event of the single-threaded runtime executing sslConnectWithRetry:
the timer of attempt i fires (start), or the connect promise of attempt i
settles (settle). -/
inductive RetryEvent where
  | start (i : Nat) : RetryEvent
  | settle (i : Nat) : RetryEvent
deriving DecidableEq, Repr

/-- Absolute time of an event: attempt i starts at i * interval (its
setTimeout delay in the scheduling loop) and settles dur later. -/
def eventTime (interval : Nat) (outcomes : List AttemptOutcome) :
    RetryEvent → Nat
  | RetryEvent.start i => i * interval
  | RetryEvent.settle i => i * interval + (outcomes.getD i ⟨0, false⟩).dur

/-- Sort key of an event: its time, then a tie-break (timer callbacks
before socket callbacks at the same timestamp, then lower attempt index).
The theorems below only use schedules with pairwise distinct times, so
the tie-break is never load-bearing. -/
def eventKey (interval : Nat) (outcomes : List AttemptOutcome)
    (e : RetryEvent) : Nat × Nat × Nat :=
  match e with
  | RetryEvent.start i => (eventTime interval outcomes e, 0, i)
  | RetryEvent.settle i => (eventTime interval outcomes e, 1, i)

/-- Lexicographic comparison of event keys. -/
def keyLe (a b : Nat × Nat × Nat) : Bool :=
  if a.1 ≠ b.1 then decide (a.1 < b.1)
  else if a.2.1 ≠ b.2.1 then decide (a.2.1 < b.2.1)
  else decide (a.2.2 ≤ b.2.2)

/-- Insertion into a key-sorted event list. -/
def insertEvent (interval : Nat) (outcomes : List AttemptOutcome)
    (e : RetryEvent) : List RetryEvent → List RetryEvent
  | [] => [e]
  | x :: xs =>
    if keyLe (eventKey interval outcomes e) (eventKey interval outcomes x)
    then e :: x :: xs
    else x :: insertEvent interval outcomes e xs

/-- The chronologically ordered schedule of all start and settle events of
an sslConnectWithRetry call with the given attempt outcomes. -/
def retrySchedule (totalAttempts interval : Nat)
    (outcomes : List AttemptOutcome) : List RetryEvent :=
  ((List.range totalAttempts).map RetryEvent.start ++
    (List.range totalAttempts).map RetryEvent.settle).foldr
      (insertEvent interval outcomes) []

/-- One step of sslConnectWithRetry, the direct embedding of tryConnect:
a start event runs only if the clearTimeout loop has not cancelled the
timer; it decrements pending first (the source decrements at the top of
tryConnect, before awaiting the connection).  A settle event of a started
attempt either takes the success path (destroy the socket when the race
is already won, otherwise set resolved, cancel the timers and resolve the
promise) or the failure path (reject the promise when pending < 1). -/
def retryStep (outcomes : List AttemptOutcome) (s : RetryState)
    (e : RetryEvent) : RetryState :=
  match e with
  | RetryEvent.start i =>
    if s.timersCancelled then s
    else { s with pending := s.pending - 1, started := i :: s.started }
  | RetryEvent.settle i =>
    if i ∈ s.started then
      if (outcomes.getD i ⟨0, false⟩).ok then
        if s.resolved then { s with destroyed := i :: s.destroyed }
        else { s with resolved := true, timersCancelled := true,
                      promise := s.promise.resolveWith i }
      else
        if s.pending < 1 then { s with promise := s.promise.rejectWith i }
        else s
    else s

/-- Full run of sslConnectWithRetry over the event schedule. -/
def runRetry (totalAttempts interval : Nat)
    (outcomes : List AttemptOutcome) : RetryState :=
  (retrySchedule totalAttempts interval outcomes).foldl
    (retryStep outcomes) (initRetryState totalAttempts)

/-- Prefix run of sslConnectWithRetry: only the events with time ≤ t. -/
def runRetryUntil (totalAttempts interval : Nat)
    (outcomes : List AttemptOutcome) (t : Nat) : RetryState :=
  ((retrySchedule totalAttempts interval outcomes).filter
      (fun e => eventTime interval outcomes e ≤ t)).foldl
    (retryStep outcomes) (initRetryState totalAttempts)

/-- Failing schedule for the first-connect claim: two attempts, 100 ms
stagger; attempt 0 needs 150 ms and connects, attempt 1 fails after
10 ms (at absolute time 110). -/
def outcomesConnectLate : List AttemptOutcome :=
  [⟨150, true⟩, ⟨10, false⟩]

/-- Failing schedule for the rejection claim: two attempts, 100 ms
stagger; attempt 0 fails after 150 ms (at 150), attempt 1 fails after
10 ms (at 110), so attempt 0 is the last attempt to fail. -/
def outcomesBothFail : List AttemptOutcome :=
  [⟨150, false⟩, ⟨10, false⟩]

/-- The number of distinct values Math.random can return: doubles of the
form k / 2 ^ 53 in the interval from 0 inclusive to 1 exclusive. -/
def TWO53 : Nat := 2 ^ 53

/-- Base-36 digit characters 0-9 then a-z, as produced by
Number.prototype.toString with radix 36. -/
def base36DigitChar (d : Nat) : Char :=
  if d < 10 then Char.ofNat (48 + d) else Char.ofNat (87 + d)

/-- Base-36 fraction digits of num / 2 ^ 53, the digits printed after the
decimal point by toString(36) on a Math.random() value.  The expansion of
a dyadic rational terminates (in at most 27 digits here); the fuel is a
generous bound. -/
def frac36 : Nat → Nat → List Char
  | 0, _ => []
  | fuel + 1, num =>
    if num = 0 then []
    else base36DigitChar (num * 36 / TWO53) :: frac36 fuel (num * 36 % TWO53)

/-- The freshly generated connection id of BaseProxy.sslProxyConnect and
sslDirectConnect: Math.random().toString(36).substring(2), i.e. the
base-36 fraction digits of the random value r / 2 ^ 53 with the leading
0. removed. -/
def genConnectionId (r : Fin TWO53) : String :=
  String.mk (frac36 54 r.val)

/-- JavaScript string disjunction a || b: b when a is the empty string
(falsy), a otherwise. -/
def jsOrString (a b : String) : String :=
  if a = "" then b else a

/-- String(headers[x-connection-id] || ''): the header value when the
header is present, the empty string otherwise. -/
def jsHeaderToString (header : Option String) : String :=
  match header with
  | some s => s
  | none => ""

/-- The connection id chosen by BaseProxy.sslProxyConnect after a
successful upstream CONNECT: the X-Connection-Id reply header when it is
a non-empty string, otherwise a freshly generated id. -/
def sslProxyConnectConnectionId (header : Option String) (r : Fin TWO53) :
    String :=
  jsOrString (jsHeaderToString header) (genConnectionId r)

/-- Carriage-return line-feed, the line separator of the CONNECT reply. -/
def CRLF : String := "\r\n"

/-- BaseProxy.replyToConnectRequest: the payload written to the client
socket, the four lines of the CONNECT reply joined with CRLF. -/
def replyToConnectPayload (connectionId : String) : String :=
  String.intercalate CRLF
    ["HTTP/1.1 200 OK", "X-Connection-Id: " ++ connectionId, "", ""]

/-- The part of the CONNECT reply before the connection id. -/
def replyHead : String := "HTTP/1.1 200 OK\r\nX-Connection-Id: "

/-- The part of the CONNECT reply after the connection id. -/
def replyTail : String := "\r\n\r\n"

/-- The Math.random value one half, whose generated id is the single
base-36 digit i. -/
def rHalf : Fin TWO53 := ⟨2 ^ 52, by norm_num [TWO53]⟩

/-- Lower-case hex rendering of one byte, as in Buffer.toString with
encoding hex: two characters, high nibble first.  The digit characters
coincide with the base-36 digits 0-9 a-f. -/
def byteToHex (b : Nat) : List Char :=
  [base36DigitChar (b / 16), base36DigitChar (b % 16)]

/-- crypto.randomBytes(8).toString(hex): the 16 hex characters of the
eight random bytes, in order. -/
def bytesToHex (bs : List Nat) : List Char :=
  (bs.map byteToHex).flatten

/-- Numeric value of one hex digit character, as read by parseInt with
radix 16 (defined on the characters 0-9 a-f that bytesToHex produces). -/
def hexCharVal (c : Char) : Nat :=
  if c.toNat < 58 then c.toNat - 48 else c.toNat - 87

/-- Accumulating hex parse: the mathematical integer denoted by a list of
hex digit characters, starting from accumulator a. -/
def parseHexAux (a : Nat) (cs : List Char) : Nat :=
  cs.foldl (fun x c => x * 16 + hexCharVal c) a

/-- Fuel-driven base-2 logarithm (floor), kernel-computable. -/
def log2fuel : Nat → Nat → Nat
  | 0, _ => 0
  | fuel + 1, n => if n < 2 then 0 else log2fuel fuel (n / 2) + 1

/-- Rounding of a mathematical integer to the nearest IEEE double
(53 significant bits, ties to even), as applied by parseInt when the
parsed value exceeds 2 ^ 53.  Values below 2 ^ 53 are exact. -/
def round53 (n : Nat) : Nat :=
  if n < 2 ^ 53 then n
  else
    let e := log2fuel 128 n - 52
    let q := n / 2 ^ e
    let r := n % 2 ^ e
    let q2 := if 2 * r > 2 ^ e ∨ (2 * r = 2 ^ e ∧ q % 2 = 1) then q + 1 else q
    q2 * 2 ^ e

/-- Membership of the real number d in the rounding interval of a double
x, both scaled by four so the half-ulp bounds stay integral; incl tells
whether the interval boundaries (the midpoints to the neighbour doubles)
themselves round to x (ties-to-even: exactly when the mantissa of x is
even). -/
def inRoundInterval (lo4 hi4 : Nat) (incl : Bool) (d : Nat) : Bool :=
  if incl then decide (lo4 ≤ 4 * d ∧ 4 * d ≤ hi4)
  else decide (lo4 < 4 * d ∧ 4 * d < hi4)

/-- The decimal candidate with k significant digits (grid spacing g) for
the shortest rendering of the double x: of the two multiples of g
bracketing x, the ones inside the rounding interval, preferring the one
closer to x and breaking ties towards an even significand, as ECMAScript
ToString prescribes.  A multiple of g farther from x can only lie in the
interval if one of these two does, so checking the bracketing pair is
complete. -/
def pickCandidate (x g lo4 hi4 : Nat) (incl : Bool) : Option Nat :=
  let m1 := x / g * g
  let m2 := m1 + g
  let in1 := inRoundInterval lo4 hi4 incl m1
  let in2 := inRoundInterval lo4 hi4 incl m2
  if in1 && in2 then
    let d1 := x - m1
    let d2 := m2 - x
    if d1 < d2 then some m1
    else if d2 < d1 then some m2
    else if (m1 / g) % 2 = 0 then some m1 else some m2
  else if in1 then some m1
  else if in2 then some m2
  else none

/-- Search for the smallest significant-digit count k (from 1 up to the
digit count L of x) whose grid has a member of the rounding interval; at
k = L the grid spacing is one and x itself is found, so the search always
succeeds within its fuel. -/
def shortestLoop (x lo4 hi4 : Nat) (incl : Bool) (L : Nat) :
    Nat → Nat → Option Nat
  | 0, _ => none
  | fuel + 1, k =>
    match pickCandidate x (10 ^ (L - k)) lo4 hi4 incl with
    | some d => some d
    | none => shortestLoop x lo4 hi4 incl L fuel (k + 1)

/-- ECMAScript ToString of a non-negative integer-valued double below
10 ^ 21 (every value arising here is below 2 ^ 65): the shortest decimal
digit string whose value converts back to exactly that double, the
closest such string when several have the minimal digit count, ties to
the even significand.  Below 2 ^ 53 the rounding interval of x holds no
other integer and no shorter grid member, so the rendering is the exact
decimal digits of x.  Above, the interval spans half an ulp downwards
(a quarter at a power-of-two mantissa boundary) and half an ulp upwards,
boundaries included exactly when the mantissa is even.  The final
fallback branch is unreachable. -/
def jsIntegerDoubleToString (x : Nat) : String :=
  if x < 2 ^ 53 then Nat.repr x
  else
    let e := log2fuel 128 x - 52
    let q := x / 2 ^ e
    let ulp := 2 ^ e
    let lowGap := if q = 2 ^ 52 then 2 ^ (e - 1) else ulp
    let lo4 := 4 * x - 2 * lowGap
    let hi4 := 4 * x + 2 * ulp
    let incl := decide (q % 2 = 0)
    let L := (Nat.toDigits 10 x).length
    match shortestLoop x lo4 hi4 incl L L 1 with
    | some d => Nat.repr d
    | none => Nat.repr x

/-- JavaScript parseInt(s, 16) for a string of hex digits: the denoted
integer, rounded to the nearest double. -/
def jsParseIntHex (cs : List Char) : Nat :=
  round53 (parseHexAux 0 cs)

/-- The integer value of a big-endian byte list. -/
def byteVal (bs : List Nat) : Nat :=
  bs.foldl (fun x b => x * 256 + b) 0

/-- SslCertStore.createCertificate line for the serial number:
cert.serialNumber = the string 01 concatenated with the NUMBER obtained by
parseInt(randomBytes(8).toString(hex), 16).  Concatenating a number to a
string applies ECMAScript ToString to the double: the shortest
round-tripping decimal rendering, in plain (non-exponent) form since all
values here are below 10 ^ 21. -/
def serialNumber (bs : List Nat) : String :=
  "01" ++ jsIntegerDoubleToString (jsParseIntHex (bytesToHex bs))

/-- Following the words of the claim, for comparison: the string 01
followed by the hexadecimal representation of the random 64-bit value. -/
def specSerialHex (v : Nat) : String :=
  "01" ++ String.mk (Nat.toDigits 16 v)

/-- Following the words of the claim, second reading: the hexadecimal
representation padded to the 16 digits of a 64-bit value. -/
def specSerialHexPadded (v : Nat) : String :=
  "01" ++ String.mk (List.replicate (16 - (Nat.toDigits 16 v).length)
    (Char.ofNat 48) ++ Nat.toDigits 16 v)

/-- Concrete random bytes whose 64-bit value is 255. -/
def bytes255 : List Nat := [0, 0, 0, 0, 0, 0, 0, 255]

/-- Concrete random bytes ff repeated eight times, whose 64-bit value is
2 ^ 64 − 1; parseInt rounds it to the double 2 ^ 64, which ECMAScript
renders as 18446744073709552000. -/
def bytesFF : List Nat := List.replicate 8 255

/-- One hour in milliseconds, from ssl-cert-store.ts. -/
def HOUR : Int := 60 * 60 * 1000

/-- One day in milliseconds, from ssl-cert-store.ts. -/
def DAY : Int := 24 * HOUR

/-- One subjectAltName entry as set by node-forge; type 2 is a DNS name. -/
structure AltName where
  type : Nat
  value : String
deriving DecidableEq, Repr

/-- The observable fields of a leaf certificate minted by
SslCertStore.createCertificate.  Subject and issuer are attribute lists of
name-value pairs; times are in milliseconds. -/
structure MintedCertificate where
  serialNumber : String
  notBefore : Int
  notAfter : Int
  subject : List (String × String)
  issuer : List (String × String)
  basicConstraintsCA : Bool
  keyUsage : List String
  subjectAltName : List AltName
deriving DecidableEq, Repr

/-- SslCertStore.createCertificate(hostname): the certificate built for a
hostname, given the subject attributes of the configured CA certificate,
certTtlDays, the current time and the eight random serial bytes. -/
def createCertificate (caSubject : List (String × String))
    (certTtlDays : Nat) (now : Int) (randomBytes8 : List Nat)
    (hostname : String) : MintedCertificate :=
  { serialNumber := serialNumber randomBytes8
    notBefore := now - DAY
    notAfter := now + (certTtlDays : Int) * DAY
    subject := [("commonName", hostname), ("organizationName", "UBIO")]
    issuer := caSubject
    basicConstraintsCA := true
    keyUsage := ["keyCertSign", "digitalSignature", "nonRepudiation",
      "keyEncipherment", "dataEncipherment"]
    subjectAltName := [⟨2, hostname⟩, ⟨2, "*." ++ hostname⟩] }

/-- The literal dot separating hostname labels. -/
def DOT : String := "."

/-- hostname.split(.).slice(1).join(.): the parent domain obtained by
removing the first label (the empty string when there is no dot). -/
def parentDomainOf (hostname : String) : String :=
  String.intercalate DOT ((hostname.splitOn DOT).drop 1)

/-- One entry of the certificate LRU cache: key, cached PEM and the time
it was stored. -/
structure LruEntry where
  key : String
  value : String
  insertedAt : Nat
deriving DecidableEq, Repr

/-- Modelled from the spec: the external lru-cache dependency holding the
minted certificates, an LRU map with capacity bound max
(certCacheMaxEntries) and per-entry max age (certTtlDays days minus one
hour).  Entries are kept most-recently-used first. -/
structure LruCache where
  entries : List LruEntry
  maxEntries : Nat
  maxAge : Nat
deriving DecidableEq, Repr

/-- Modelled from the spec: staleness of a cache entry, age beyond maxAge
(a zero maxAge disables expiry). -/
def lruStale (maxAge now : Nat) (e : LruEntry) : Bool :=
  decide (maxAge ≠ 0 ∧ maxAge < now - e.insertedAt)

/-- Modelled from the spec: cache.get(k) — a fresh hit returns the value
and moves the entry to the most-recent position; a stale hit deletes the
entry and misses; expired entries are treated as absent. -/
def lruGet (c : LruCache) (now : Nat) (k : String) :
    Option String × LruCache :=
  match c.entries.find? (fun e => e.key == k) with
  | none => (none, c)
  | some e =>
    if lruStale c.maxAge now e then
      (none, { c with entries := c.entries.filter (fun x => x.key != k) })
    else
      (some e.value,
        { c with entries := e :: c.entries.filter (fun x => x.key != k) })

/-- Modelled from the spec: cache.set(k, v) — insert at the most-recent
position (replacing any entry with the same key) and evict
least-recently-used entries beyond the capacity bound. -/
def lruSet (c : LruCache) (now : Nat) (k v : String) : LruCache :=
  { c with entries :=
      ({ key := k, value := v, insertedAt := now } ::
        c.entries.filter (fun x => x.key != k)).take c.maxEntries }

/-- A pure read of the cache as get would see it: the value under key k
when present and fresh. -/
def freshLookup (c : LruCache) (now : Nat) (k : String) : Option String :=
  match c.entries.find? (fun e => e.key == k) with
  | none => none
  | some e => if lruStale c.maxAge now e then none else some e.value

/-- JavaScript truthiness of a string-or-undefined: false for undefined
and for the empty string. -/
def jsTruthyStr (o : Option String) : Bool :=
  match o with
  | some s => s != ""
  | none => false

/-- The string under a present option (the empty string otherwise); used
to read a value already known to be truthy. -/
def strOfOpt (o : Option String) : String :=
  match o with
  | some s => s
  | none => ""

/-- SslCertStore.getCertificate(hostname): look up the exact hostname,
on miss (or falsy value) the one-label-stripped parent domain, and on a
full miss mint a certificate and store it under the exact hostname.  The
mint parameter stands for createCertificate rendered to PEM.  Returns the
certificate and the updated cache. -/
def getCertificate (c : LruCache) (now : Nat) (mint : String → String)
    (hostname : String) : String × LruCache :=
  let parentDomain := parentDomainOf hostname
  let g1 := lruGet c now hostname
  if jsTruthyStr g1.1 then (strOfOpt g1.1, g1.2)
  else
    let g2 := lruGet g1.2 now parentDomain
    if jsTruthyStr g2.1 then (strOfOpt g2.1, g2.2)
    else
      let cert := mint hostname
      (cert, lruSet g2.2 now hostname cert)

/-- Outcome of the HTTP-path handler BaseProxy.onRequest: either the
forwarded response arrived (with an optional status code), or the
handler threw (an error with an optional HTTP status of its own). -/
inductive HttpOutcome where
  | success (fwdStatus : Option Nat) : HttpOutcome
  | failure (errStatus : Option Nat) : HttpOutcome
deriving DecidableEq, Repr

/-- The status code BaseProxy.onRequest writes to the client:
fwdRes.statusCode ?? 599 on success, error.status ?? 502 in the catch
block. -/
def onRequestStatus : HttpOutcome → Nat
  | HttpOutcome.success s => s.getD 599
  | HttpOutcome.failure e => e.getD 502

/-- The status code the catch block of BaseProxy.onConnect writes on the
client socket when the CONNECT path fails: error.status ?? 502. -/
def onConnectFailureStatus (errStatus : Option Nat) : Nat :=
  errStatus.getD 502

/-- The password mask used in error details. -/
def PASSWORD_MASK : String := "***"

/-- The upstream object embedded in error details: the spread of the
upstream with its password overwritten by the mask.  Spreading null gives
an object with only the mask, hence every field but the password is
optional. -/
structure SanitizedUpstream where
  host : Option String
  username : Option String
  password : String
  useHttps : Option Bool
deriving DecidableEq, Repr

/-- The spread-and-mask step shared by both error constructors in
commons.ts. -/
def sanitizeUpstream (u : Option ProxyUpstream) : SanitizedUpstream :=
  match u with
  | some u =>
    { host := some u.host, username := u.username,
      password := PASSWORD_MASK, useHttps := u.useHttps }
  | none =>
    { host := none, username := none, password := PASSWORD_MASK,
      useHttps := none }

/-- The details object of ProxyConnectionFailed: the sanitized upstream
and the upstream status code. -/
structure FailedDetails where
  upstream : SanitizedUpstream
  status : Nat
deriving DecidableEq, Repr

/-- ProxyConnectionFailed(upstream, status).details. -/
def proxyConnectionFailedDetails (u : ProxyUpstream) (status : Nat) :
    FailedDetails :=
  { upstream := sanitizeUpstream (some u), status := status }

/-- ProxyConnectionTimeout(upstream).details (the upstream may be null on
the direct-connect path). -/
def proxyConnectionTimeoutDetails (u : Option ProxyUpstream) :
    SanitizedUpstream :=
  sanitizeUpstream u

end Uniproxy

namespace Uniproxy

/-- The CONNECT reply is the head, then the chosen connection id, then
the tail: the chosen id is sent back to the downstream client. -/
theorem replyToConnectPayload_eq (id : String) :
    replyToConnectPayload id = replyHead ++ id ++ replyTail := by
  simp only [replyToConnectPayload, String.intercalate, String.intercalate.go,
    CRLF, replyHead, replyTail]
  apply String.ext
  simp [String.data_append]

/-- C1: for every ordered route list whose patterns all compile and every
host string, RoutingProxy.matchRoute returns the upstream of the first
route whose compiled (case-insensitive) pattern matches the host, and
defaultUpstream when no route matches. -/
theorem matchRoute_first_match_wins
    (compile : String → Option (String → Bool))
    (routes : List ProxyRoute) (d : Option ProxyUpstream) (host : String)
    (hcompile : ∀ r ∈ routes, (compile r.hostPattern).isSome) :
    matchRoute compile routes d host =
      Except.ok ((routes.find? (routeTest compile host)).elim d ProxyRoute.upstream) := by
  induction routes with
  | nil => rfl
  | cons r rest ih =>
    have hr : (compile r.hostPattern).isSome := hcompile r (List.mem_cons_self r rest)
    obtain ⟨test, htest⟩ := Option.isSome_iff_exists.mp hr
    have hrest : ∀ x ∈ rest, (compile x.hostPattern).isSome :=
      fun x hx => hcompile x (List.mem_cons_of_mem r hx)
    by_cases hmatch : test host
    · simp [matchRoute, htest, hmatch, List.find?, routeTest]
    · simp only [matchRoute, htest, hmatch, if_neg, Bool.false_eq_true, not_false_iff]
      rw [ih hrest]
      have : routeTest compile host r = false := by
        simp [routeTest, htest, hmatch]
      simp [List.find?, this]

/-- Witness for C1: on a concrete two-route table the second route is the
first match and its upstream is returned. -/
theorem matchRoute_first_match_wins_witness :
    matchRoute compileEq demoRoutes none ("a") =
      Except.ok (some demoUpstream) := by
  have h := matchRoute_first_match_wins compileEq demoRoutes none ("a")
    (by intro r hr; fin_cases hr <;> rfl)
  rw [h]; rfl

/-- C5 counterexample: inserting a route whose hostPattern is the invalid
regular expression ( succeeds and changes the table, refuting the claim
that such an insertion fails leaving the table unchanged. -/
theorem insertRoute_accepts_invalid_pattern :
    insertRoute [] invalidSpec 0 =
      [{ label := defaultLabel, hostPattern := "(", upstream := none }] ∧
    insertRoute [] invalidSpec 0 ≠ [] := by
  constructor
  · rfl
  · intro h; simp [insertRoute, mkRoute, invalidSpec] at h

/-- C5 amended: insertRoute performs no regex validation; any route
(including one with an invalid pattern) is inserted, growing the table by
one entry at the given index, and matchRoute raises an exception when the
first route of the table has a pattern that does not compile. -/
theorem insertRoute_no_validation_amended
    (compile : String → Option (String → Bool))
    (routes : List ProxyRoute) (spec : ProxyInsertRouteSpec) (index : Nat)
    (d : Option ProxyUpstream) (host : String)
    (hbad : compile spec.hostPattern = none) :
    (insertRoute routes spec index).length = routes.length + 1 ∧
    mkRoute spec ∈ insertRoute routes spec index ∧
    matchRoute compile (insertRoute routes spec 0) d host = Except.error () := by
  refine ⟨?_, ?_, ?_⟩
  · simp [insertRoute]
    omega
  · simp [insertRoute]
  · have h0 : insertRoute routes spec 0 = mkRoute spec :: routes := by
      simp [insertRoute]
    rw [h0]
    simp [matchRoute, mkRoute, hbad]

/-- C2: evaluation of sslConnectWithRetry at the failing schedule
(N = 2 attempts, 100 ms stagger, attempt 0 connects at 150 ms, attempt 1
fails at 110 ms).  The first and only attempt whose socket connects is
attempt 0, yet the returned promise is already rejected when it connects,
so it resolves nothing, and its socket is not destroyed either: the
pending counter is decremented when an attempt starts rather than when it
settles, contradicting the claim (and the doc comment of the method, which
promises that the first successfully established connection is resolved). -/
theorem sslConnectWithRetry_first_connect_does_not_resolve :
    (outcomesConnectLate.getD 0 ⟨0, false⟩).ok = true ∧
    (outcomesConnectLate.getD 1 ⟨0, false⟩).ok = false ∧
    eventTime 100 outcomesConnectLate (RetryEvent.settle 0) = 150 ∧
    eventTime 100 outcomesConnectLate (RetryEvent.settle 1) = 110 ∧
    (runRetry 2 100 outcomesConnectLate).promise = RetryPromise.rejectedWith 1 ∧
    (runRetry 2 100 outcomesConnectLate).destroyed = [] := by
  decide

/-- C3: evaluation of sslConnectWithRetry at the failing schedule
(N = 2 attempts, 100 ms stagger, attempt 0 fails at 150 ms, attempt 1
fails at 110 ms).  At time 120 the promise is already rejected with the
error of attempt 1 although attempt 0 is still in flight (it settles only
at 150), and the final rejection value is the error of attempt 1, not of
attempt 0, the last attempt to fail: the code rejects on the first failure
once every attempt has merely started, contradicting the claim. -/
theorem sslConnectWithRetry_rejects_while_attempt_in_flight :
    (runRetryUntil 2 100 outcomesBothFail 120).promise =
      RetryPromise.rejectedWith 1 ∧
    0 ∈ (runRetryUntil 2 100 outcomesBothFail 120).started ∧
    eventTime 100 outcomesBothFail (RetryEvent.settle 0) = 150 ∧
    120 < 150 ∧
    (runRetry 2 100 outcomesBothFail).promise = RetryPromise.rejectedWith 1 ∧
    RetryPromise.rejectedWith 1 ≠ RetryPromise.rejectedWith 0 := by
  decide

/-- C4 counterexample: the claim fails in two ways.  First, when the
upstream reply carries the header X-Connection-Id with an empty value
(the header is present), the connection id is a generated one, not the
header value.  Second, the generated id is a function of a single
Math.random() value, so it ranges over at most 2 ^ 53 strings; an id with
at least 64 bits of entropy would need at least 2 ^ 64 possible values. -/
theorem connectionId_entropy_counterexample :
    sslProxyConnectConnectionId (some ("")) rHalf = genConnectionId rHalf ∧
    genConnectionId rHalf = "i" ∧
    sslProxyConnectConnectionId (some ("")) rHalf ≠ "" ∧
    (Finset.image genConnectionId Finset.univ).card < 2 ^ 64 := by
  refine ⟨rfl, by decide, by decide, ?_⟩
  have h1 : (Finset.image genConnectionId Finset.univ).card ≤
      (Finset.univ : Finset (Fin TWO53)).card := Finset.card_image_le
  have h2 : (Finset.univ : Finset (Fin TWO53)).card = TWO53 := by
    rw [Finset.card_univ, Fintype.card_fin]
  calc (Finset.image genConnectionId Finset.univ).card
      ≤ TWO53 := h1.trans (le_of_eq h2)
    _ < 2 ^ 64 := by norm_num [TWO53]

/-- C4 amended: the Connection connectionId equals the X-Connection-Id
value of the upstream reply when that header is present with a non-empty
value; otherwise (absent header, or present with an empty value) it is a
freshly generated id derived from a single Math.random() value, which
ranges over at most 2 ^ 53 distinct strings (at most 53 bits of entropy,
not 64); the chosen id is sent back to the downstream client inside the
CONNECT reply written by replyToConnectRequest. -/
theorem connectionId_adoption_amended (header : String) (r : Fin TWO53)
    (hne : header ≠ "") :
    sslProxyConnectConnectionId (some header) r = header ∧
    sslProxyConnectConnectionId none r = genConnectionId r ∧
    sslProxyConnectConnectionId (some ("")) r = genConnectionId r ∧
    (Finset.image genConnectionId Finset.univ).card ≤ 2 ^ 53 ∧
    replyToConnectPayload (sslProxyConnectConnectionId (some header) r) =
      replyHead ++ header ++ replyTail ∧
    replyToConnectPayload (genConnectionId r) =
      replyHead ++ genConnectionId r ++ replyTail := by
  have hadopt : sslProxyConnectConnectionId (some header) r = header := by
    simp [sslProxyConnectConnectionId, jsHeaderToString, jsOrString, hne]
  have hcard : (Finset.image genConnectionId Finset.univ).card ≤ 2 ^ 53 := by
    have h1 : (Finset.image genConnectionId Finset.univ).card ≤
        (Finset.univ : Finset (Fin TWO53)).card := Finset.card_image_le
    have h2 : (Finset.univ : Finset (Fin TWO53)).card = TWO53 := by
      rw [Finset.card_univ, Fintype.card_fin]
    rw [h2] at h1
    simpa [TWO53] using h1
  refine ⟨hadopt, rfl, rfl, hcard, ?_, replyToConnectPayload_eq _⟩
  rw [hadopt]
  exact replyToConnectPayload_eq header

/-- Witness for C4 amended, at the header value abc and the random value
one half. -/
theorem connectionId_adoption_amended_witness :
    sslProxyConnectConnectionId (some ("abc")) rHalf = "abc" ∧
    sslProxyConnectConnectionId none rHalf = genConnectionId rHalf ∧
    sslProxyConnectConnectionId (some ("")) rHalf = genConnectionId rHalf ∧
    (Finset.image genConnectionId Finset.univ).card ≤ 2 ^ 53 ∧
    replyToConnectPayload (sslProxyConnectConnectionId (some ("abc")) rHalf) =
      replyHead ++ "abc" ++ replyTail ∧
    replyToConnectPayload (genConnectionId rHalf) =
      replyHead ++ genConnectionId rHalf ++ replyTail :=
  connectionId_adoption_amended ("abc") rHalf (by decide)

/-- Round trip of one hex digit: parsing the character emitted for a
nibble recovers the nibble. -/
theorem hexCharVal_base36DigitChar (d : Nat) (hd : d < 16) :
    hexCharVal (base36DigitChar d) = d := by
  interval_cases d <;> rfl

/-- Parsing the hex rendering of a byte list recovers its big-endian
value, for any accumulator. -/
theorem parseHexAux_bytesToHex (bs : List Nat) (hb : ∀ b ∈ bs, b < 256) :
    ∀ a : Nat, parseHexAux a (bytesToHex bs) = bs.foldl (fun x b => x * 256 + b) a := by
  induction bs with
  | nil => intro a; rfl
  | cons b rest ih =>
    intro a
    have hb1 : b < 256 := hb b (List.mem_cons_self b rest)
    have hrest : ∀ x ∈ rest, x < 256 := fun x hx => hb x (List.mem_cons_of_mem b hx)
    have hhi : b / 16 < 16 := by omega
    have hlo : b % 16 < 16 := by omega
    have hstep : parseHexAux a (byteToHex b) = a * 256 + b := by
      simp only [parseHexAux, byteToHex, List.foldl_cons, List.foldl_nil,
        hexCharVal_base36DigitChar _ hhi, hexCharVal_base36DigitChar _ hlo]
      omega
    have hsplit : bytesToHex (b :: rest) = byteToHex b ++ bytesToHex rest := by
      simp [bytesToHex]
    rw [hsplit]
    simp only [parseHexAux, List.foldl_append] at *
    rw [hstep] at *
    exact ih hrest (a * 256 + b)

/-- C6 counterexample: for the concrete random bytes with value 255 the
minted serial number is the string 01255, the value rendered in DECIMAL,
which differs from 01 followed by the hexadecimal representation of 255
under either reading (minimal digits, or padded to 16 digits); for the
bytes ff repeated eight times, whose value 2 ^ 64 − 1 parses to the
double 2 ^ 64, the serial is 01 followed by the shortest round-tripping
decimal 18446744073709552000 — again not hexadecimal. -/
theorem serialNumber_decimal_counterexample :
    serialNumber bytes255 = "01255" ∧
    specSerialHex 255 = "01ff" ∧
    specSerialHexPadded 255 = "0100000000000000ff" ∧
    serialNumber bytes255 ≠ specSerialHex 255 ∧
    serialNumber bytes255 ≠ specSerialHexPadded 255 ∧
    serialNumber bytesFF = "0118446744073709552000" ∧
    serialNumber bytesFF ≠ specSerialHex 18446744073709551615 ∧
    serialNumber bytesFF ≠ specSerialHexPadded 18446744073709551615 := by
  refine ⟨by decide, by decide, by decide, by decide, by decide,
    by decide, by decide, by decide⟩

/-- C6 amended: the serial number is the string 01 followed by the
DECIMAL rendering that JavaScript string concatenation gives the parsed
double — the shortest round-tripping decimal digits of the 64-bit value
rounded to 53 significant bits — and in particular, whenever the random
value is below 2 ^ 53 (so the double is exact), the exact decimal
representation of that value.  It is not hexadecimal. -/
theorem serialNumber_amended (bs : List Nat) (hlen : bs.length = 8)
    (hb : ∀ b ∈ bs, b < 256) :
    serialNumber bs =
      "01" ++ jsIntegerDoubleToString (round53 (byteVal bs)) ∧
    (byteVal bs < 2 ^ 53 →
      serialNumber bs = "01" ++ Nat.repr (byteVal bs)) := by
  have hmain : serialNumber bs =
      "01" ++ jsIntegerDoubleToString (round53 (byteVal bs)) := by
    unfold serialNumber jsParseIntHex byteVal
    rw [parseHexAux_bytesToHex bs hb 0]
  refine ⟨hmain, ?_⟩
  intro hlt
  have h53 : round53 (byteVal bs) = byteVal bs := by
    unfold round53
    rw [if_pos hlt]
  have hjs : jsIntegerDoubleToString (byteVal bs) = Nat.repr (byteVal bs) := by
    unfold jsIntegerDoubleToString
    rw [if_pos hlt]
  rw [hmain, h53, hjs]

/-- Witness for C6 amended, at the concrete bytes with value 255 (which
is below 2 ^ 53, so both conjuncts evaluate). -/
theorem serialNumber_amended_witness :
    serialNumber bytes255 =
      "01" ++ jsIntegerDoubleToString (round53 (byteVal bytes255)) ∧
    serialNumber bytes255 = "01" ++ Nat.repr (byteVal bytes255) :=
  ⟨(serialNumber_amended bytes255 (by decide) (by decide)).1,
   (serialNumber_amended bytes255 (by decide) (by decide)).2 (by decide)⟩

/-- Witness for C5 amended: concrete insertion of the invalid-pattern
route into the empty table under a compile function that rejects it. -/
theorem insertRoute_no_validation_amended_witness :
    (insertRoute [] invalidSpec 0).length = ([] : List ProxyRoute).length + 1 ∧
    mkRoute invalidSpec ∈ insertRoute [] invalidSpec 0 ∧
    matchRoute compileNone (insertRoute [] invalidSpec 0) none ("x") =
      Except.error () :=
  insertRoute_no_validation_amended compileNone [] invalidSpec 0 none ("x") rfl

/-- C7: every leaf certificate issued by createCertificate carries
exactly the two DNS (type 2) subjectAltName entries hostname and
*.hostname, its issuer equals the subject attributes of the configured CA
certificate, and its validity window is notBefore = now − 24h,
notAfter = now + certTtlDays · 24h, so notAfter − notBefore equals (and
in particular is at most) (certTtlDays + 1) · 24h. -/
theorem createCertificate_san_issuer_validity
    (caSubject : List (String × String)) (certTtlDays : Nat) (now : Int)
    (randomBytes8 : List Nat) (hostname : String) :
    (createCertificate caSubject certTtlDays now randomBytes8
        hostname).subjectAltName =
      [⟨2, hostname⟩, ⟨2, "*." ++ hostname⟩] ∧
    (createCertificate caSubject certTtlDays now randomBytes8
        hostname).issuer = caSubject ∧
    (createCertificate caSubject certTtlDays now randomBytes8
        hostname).notBefore = now - DAY ∧
    (createCertificate caSubject certTtlDays now randomBytes8
        hostname).notAfter = now + (certTtlDays : Int) * DAY ∧
    (createCertificate caSubject certTtlDays now randomBytes8
          hostname).notAfter -
        (createCertificate caSubject certTtlDays now randomBytes8
          hostname).notBefore = ((certTtlDays : Int) + 1) * DAY ∧
    (createCertificate caSubject certTtlDays now randomBytes8
          hostname).notAfter -
        (createCertificate caSubject certTtlDays now randomBytes8
          hostname).notBefore ≤ ((certTtlDays : Int) + 1) * DAY := by
  refine ⟨rfl, rfl, rfl, rfl, ?_, ?_⟩
  · show now + (certTtlDays : Int) * DAY - (now - DAY) = ((certTtlDays : Int) + 1) * DAY
    ring
  · show now + (certTtlDays : Int) * DAY - (now - DAY) ≤ ((certTtlDays : Int) + 1) * DAY
    have h : now + (certTtlDays : Int) * DAY - (now - DAY) =
        ((certTtlDays : Int) + 1) * DAY := by ring
    exact le_of_eq h

/-- Filtering out an element that fails the predicate strictly shrinks
the list. -/
theorem length_filter_lt_of_mem {α : Type} (p : α → Bool) {x : α}
    {l : List α} (hx : x ∈ l) (hpx : p x = false) :
    (l.filter p).length < l.length := by
  induction l with
  | nil => cases hx
  | cons a t ih =>
    rcases List.mem_cons.mp hx with h | h
    · subst h
      have hle := List.length_filter_le p t
      simp [List.filter_cons, hpx]
      omega
    · have hlt := ih h
      cases hpa : p a <;> simp [List.filter_cons, hpa] <;> omega

/-- Removing the entries of one key does not change the lookup of a
different key. -/
theorem find?_filter_other {l : List LruEntry} {k p : String}
    (hne : p ≠ k) :
    (l.filter (fun x => x.key != k)).find? (fun e => e.key == p) =
      l.find? (fun e => e.key == p) := by
  induction l with
  | nil => rfl
  | cons a t ih =>
    by_cases hak : a.key = k
    · have h1 : (a.key != k) = false := by simp [hak]
      have h2 : (a.key == p) = false := by
        simp [hak]
        exact Ne.symm hne
      simp [List.filter_cons, h1, List.find?_cons, h2, ih]
    · have h1 : (a.key != k) = true := by simp [hak]
      cases hap : (a.key == p) <;>
        simp [List.filter_cons, h1, List.find?_cons, hap, ih]

/-- The value component of lruGet is the fresh lookup. -/
theorem lruGet_fst (c : LruCache) (now : Nat) (k : String) :
    (lruGet c now k).1 = freshLookup c now k := by
  unfold lruGet freshLookup
  cases hf : c.entries.find? (fun e => e.key == k) with
  | none => rfl
  | some e => cases hs : lruStale c.maxAge now e <;> simp [hs]

/-- lruGet changes only the entry list, not the configured bounds. -/
theorem lruGet_bounds (c : LruCache) (now : Nat) (k : String) :
    (lruGet c now k).2.maxEntries = c.maxEntries ∧
    (lruGet c now k).2.maxAge = c.maxAge := by
  unfold lruGet
  cases hf : c.entries.find? (fun e => e.key == k) with
  | none => exact ⟨rfl, rfl⟩
  | some e => cases hs : lruStale c.maxAge now e <;> simp [hs]

/-- Unfolding of freshLookup on a missing key. -/
theorem freshLookup_none (c : LruCache) (now : Nat) (k : String)
    (h : c.entries.find? (fun e => e.key == k) = none) :
    freshLookup c now k = none := by
  unfold freshLookup
  rw [h]

/-- Unfolding of freshLookup on a found entry. -/
theorem freshLookup_some (c : LruCache) (now : Nat) (k : String)
    (e : LruEntry) (h : c.entries.find? (fun e => e.key == k) = some e) :
    freshLookup c now k =
      if lruStale c.maxAge now e then none else some e.value := by
  unfold freshLookup
  rw [h]

/-- lruGet never grows the cache. -/
theorem lruGet_length_le (c : LruCache) (now : Nat) (k : String) :
    (lruGet c now k).2.entries.length ≤ c.entries.length := by
  cases hf : c.entries.find? (fun e => e.key == k) with
  | none => simp [lruGet, hf]
  | some e =>
    have hmem : e ∈ c.entries := List.mem_of_find?_eq_some hf
    have hkey : (e.key == k) = true := by simpa using List.find?_some hf
    have hkf : (e.key != k) = false := by simp [bne, hkey]
    have hlt := length_filter_lt_of_mem (fun x => x.key != k) hmem hkf
    have hle := List.length_filter_le (fun x => x.key != k) c.entries
    cases hs : lruStale c.maxAge now e <;> simp [lruGet, hf, hs] <;> omega

/-- Every entry surviving lruGet was already in the cache. -/
theorem lruGet_mem (c : LruCache) (now : Nat) (k : String) :
    ∀ x ∈ (lruGet c now k).2.entries, x ∈ c.entries := by
  unfold lruGet
  cases hf : c.entries.find? (fun e => e.key == k) with
  | none => intro x hx; simpa using hx
  | some e =>
    have hmem : e ∈ c.entries := List.mem_of_find?_eq_some hf
    cases hs : lruStale c.maxAge now e
    · intro x hx
      simp only [hs, Bool.false_eq_true, if_false] at hx
      rcases List.mem_cons.mp hx with h | h
      · exact h ▸ hmem
      · exact (List.mem_filter.mp h).1
    · intro x hx
      simp only [hs, if_true] at hx
      exact (List.mem_filter.mp hx).1

/-- After a missed lruGet (absent or stale entry), every fresh lookup is
unchanged: a stale deletion removes only entries that a fresh lookup
already treats as absent. -/
theorem lruGet_miss_preserves (c : LruCache) (now : Nat) (k : String)
    (hmiss : freshLookup c now k = none) (p : String) :
    freshLookup (lruGet c now k).2 now p = freshLookup c now p := by
  cases hf : c.entries.find? (fun e => e.key == k) with
  | none =>
    have hc2 : (lruGet c now k).2 = c := by
      unfold lruGet; rw [hf]
    rw [hc2]
  | some e =>
    have hif : (if lruStale c.maxAge now e then none else some e.value) =
        (none : Option String) := by
      rw [← freshLookup_some c now k e hf]
      exact hmiss
    have hst : lruStale c.maxAge now e = true := by
      cases hs : lruStale c.maxAge now e
      · rw [hs] at hif; simp at hif
      · rfl
    have hc2 : (lruGet c now k).2 =
        { c with entries := c.entries.filter (fun x => x.key != k) } := by
      unfold lruGet; rw [hf]; simp [hst]
    rw [hc2]
    by_cases hpk : p = k
    · subst hpk
      have hnone : (c.entries.filter (fun x => x.key != p)).find?
          (fun e => e.key == p) = none := by
        rw [List.find?_eq_none]
        intro x hx
        have hx2 := (List.mem_filter.mp hx).2
        simp only [bne] at hx2
        simpa using hx2
      rw [freshLookup_none _ now p hnone, hmiss]
    · cases hfp : c.entries.find? (fun e => e.key == p) with
      | none =>
        have hfp2 : (c.entries.filter (fun x => x.key != k)).find?
            (fun e => e.key == p) = none := by
          rw [find?_filter_other hpk]; exact hfp
        rw [freshLookup_none _ now p hfp2, freshLookup_none c now p hfp]
      | some e2 =>
        have hfp2 : (c.entries.filter (fun x => x.key != k)).find?
            (fun e => e.key == p) = some e2 := by
          rw [find?_filter_other hpk]; exact hfp
        rw [freshLookup_some _ now p e2 hfp2, freshLookup_some c now p e2 hfp]

/-- After lruSet with a positive capacity, the key freshly maps to the
value just stored. -/
theorem lruSet_freshLookup (c : LruCache) (now : Nat) (k v : String)
    (hmax : 0 < c.maxEntries) :
    freshLookup (lruSet c now k v) now k = some v := by
  obtain ⟨m, hm⟩ : ∃ m, c.maxEntries = m + 1 := ⟨c.maxEntries - 1, by omega⟩
  have hent : (lruSet c now k v).entries =
      ({ key := k, value := v, insertedAt := now } :: ((c.entries.filter
        (fun x => x.key != k)).take m) : List LruEntry) := by
    show ({ key := k, value := v, insertedAt := now } ::
      c.entries.filter (fun x => x.key != k)).take c.maxEntries = _
    rw [hm, List.take_succ_cons]
  have hfind : (lruSet c now k v).entries.find? (fun e => e.key == k) =
      some { key := k, value := v, insertedAt := now } := by
    rw [hent]
    simp [List.find?_cons]
  rw [freshLookup_some _ now k _ hfind]
  simp [lruStale]

/-- A fresh lookup result is the value of some cache entry. -/
theorem freshLookup_value_mem (c : LruCache) (now : Nat) (k v : String)
    (h : freshLookup c now k = some v) : ∃ e ∈ c.entries, e.value = v := by
  cases hf : c.entries.find? (fun e => e.key == k) with
  | none => rw [freshLookup_none c now k hf] at h; cases h
  | some e =>
    rw [freshLookup_some c now k e hf] at h
    cases hs : lruStale c.maxAge now e
    · rw [hs] at h
      simp at h
      exact ⟨e, List.mem_of_find?_eq_some hf, h⟩
    · rw [hs] at h
      simp at h

/-- lruSet respects the capacity bound. -/
theorem lruSet_length_le (c : LruCache) (now : Nat) (k v : String) :
    (lruSet c now k v).entries.length ≤ c.maxEntries := by
  simp only [lruSet, List.length_take]
  exact min_le_left _ _

/-- C8: the certificate cache never exceeds certCacheMaxEntries entries,
and getCertificate looks up the exact hostname first, the parent domain
(first label removed) on miss — so a lookup after an insert of the parent
domain returns the cached parent certificate — and on a full miss mints a
certificate and stores it under the exact hostname.  Hypotheses: positive
capacity (the external lru-cache treats a zero bound as unlimited), the
size bound holding before the call, and cached PEMs being non-empty (the
source only stores PEM strings, which are never empty). -/
theorem getCertificate_cache_properties
    (c : LruCache) (now : Nat) (mint : String → String) (hostname : String)
    (hmax : 0 < c.maxEntries)
    (hsize : c.entries.length ≤ c.maxEntries)
    (hmint : mint hostname ≠ "")
    (hvals : ∀ e ∈ c.entries, e.value ≠ "") :
    (getCertificate c now mint hostname).2.entries.length ≤ c.maxEntries ∧
    (getCertificate c now mint hostname).2.maxEntries = c.maxEntries ∧
    (∀ v, freshLookup c now hostname = some v →
      (getCertificate c now mint hostname).1 = v) ∧
    (freshLookup c now hostname = none →
      ∀ w, freshLookup c now (parentDomainOf hostname) = some w →
        (getCertificate c now mint hostname).1 = w) ∧
    (freshLookup c now hostname = none →
      freshLookup c now (parentDomainOf hostname) = none →
        (getCertificate c now mint hostname).1 = mint hostname ∧
        freshLookup (getCertificate c now mint hostname).2 now hostname =
          some (mint hostname)) := by
  have hg1fst := lruGet_fst c now hostname
  have hb1 := (lruGet_bounds c now hostname).1
  have hl1 := lruGet_length_le c now hostname
  cases hk : freshLookup c now hostname with
  | some v =>
    obtain ⟨e, hem, hev⟩ := freshLookup_value_mem c now hostname v hk
    have hv : v ≠ "" := hev ▸ hvals e hem
    have htr : jsTruthyStr (lruGet c now hostname).1 = true := by
      rw [hg1fst, hk]
      simp only [jsTruthyStr, bne_iff_ne, ne_eq]
      simpa using hv
    have hgc : getCertificate c now mint hostname =
        (strOfOpt (lruGet c now hostname).1, (lruGet c now hostname).2) := by
      unfold getCertificate
      simp only [htr, if_true]
    refine ⟨?_, ?_, ?_, ?_, ?_⟩
    · rw [hgc]
      exact le_trans hl1 hsize
    · rw [hgc]
      exact hb1
    · intro v2 hv2
      injection hv2 with hv2
      rw [hgc]
      show strOfOpt (lruGet c now hostname).1 = v2
      rw [hg1fst, hk]
      exact hv2
    · intro hnone
      cases hnone
    · intro hnone
      cases hnone
  | none =>
    have hft : jsTruthyStr (lruGet c now hostname).1 = false := by
      rw [hg1fst, hk]
      rfl
    have hpres := lruGet_miss_preserves c now hostname hk
    have hg2fst := lruGet_fst (lruGet c now hostname).2 now (parentDomainOf hostname)
    have hb2 := (lruGet_bounds (lruGet c now hostname).2 now (parentDomainOf hostname)).1
    have hl2 := lruGet_length_le (lruGet c now hostname).2 now (parentDomainOf hostname)
    cases hp : freshLookup c now (parentDomainOf hostname) with
    | some w =>
      have hg2v : (lruGet (lruGet c now hostname).2 now
          (parentDomainOf hostname)).1 = some w := by
        rw [hg2fst, hpres, hp]
      obtain ⟨e2, he2m, he2v⟩ :=
        freshLookup_value_mem (lruGet c now hostname).2 now
          (parentDomainOf hostname) w (by rw [hpres]; exact hp)
      have he2c : e2 ∈ c.entries := lruGet_mem c now hostname e2 he2m
      have hw : w ≠ "" := he2v ▸ hvals e2 he2c
      have htr2 : jsTruthyStr (lruGet (lruGet c now hostname).2 now
          (parentDomainOf hostname)).1 = true := by
        rw [hg2v]
        simp only [jsTruthyStr, bne_iff_ne, ne_eq]
        simpa using hw
      have hgc : getCertificate c now mint hostname =
          (strOfOpt (lruGet (lruGet c now hostname).2 now
            (parentDomainOf hostname)).1,
           (lruGet (lruGet c now hostname).2 now
            (parentDomainOf hostname)).2) := by
        unfold getCertificate
        simp only [hft, Bool.false_eq_true, if_false, htr2, if_true]
      refine ⟨?_, ?_, ?_, ?_, ?_⟩
      · rw [hgc]
        exact le_trans hl2 (le_trans hl1 hsize)
      · rw [hgc]
        rw [hb2, hb1]
      · intro v2 hv2
        cases hv2
      · intro _ w2 hw2
        injection hw2 with hw2
        rw [hgc]
        show strOfOpt (lruGet (lruGet c now hostname).2 now
          (parentDomainOf hostname)).1 = w2
        rw [hg2v]
        exact hw2
      · intro _ hnone
        cases hnone
    | none =>
      have hg2v : (lruGet (lruGet c now hostname).2 now
          (parentDomainOf hostname)).1 = none := by
        rw [hg2fst, hpres, hp]
      have htr2 : jsTruthyStr (lruGet (lruGet c now hostname).2 now
          (parentDomainOf hostname)).1 = false := by
        rw [hg2v]
        rfl
      have hgc : getCertificate c now mint hostname =
          (mint hostname,
           lruSet (lruGet (lruGet c now hostname).2 now
             (parentDomainOf hostname)).2 now hostname (mint hostname)) := by
        unfold getCertificate
        simp only [hft, Bool.false_eq_true, if_false, htr2]
      have hb2c : (lruGet (lruGet c now hostname).2 now
          (parentDomainOf hostname)).2.maxEntries = c.maxEntries := by
        rw [hb2, hb1]
      refine ⟨?_, ?_, ?_, ?_, ?_⟩
      · rw [hgc]
        calc (lruSet (lruGet (lruGet c now hostname).2 now
              (parentDomainOf hostname)).2 now hostname
              (mint hostname)).entries.length
            ≤ (lruGet (lruGet c now hostname).2 now
              (parentDomainOf hostname)).2.maxEntries :=
              lruSet_length_le _ now hostname (mint hostname)
          _ = c.maxEntries := hb2c
      · rw [hgc]
        show (lruSet (lruGet (lruGet c now hostname).2 now
          (parentDomainOf hostname)).2 now hostname
          (mint hostname)).maxEntries = c.maxEntries
        rw [← hb2c]
        rfl
      · intro v2 hv2
        cases hv2
      · intro _ w2 hw2
        cases hw2
      · intro _ _
        constructor
        · rw [hgc]
        · rw [hgc]
          exact lruSet_freshLookup _ now hostname (mint hostname)
            (by rw [hb2c]; exact hmax)

/-- Witness for C8, on an empty cache of capacity one: a full miss mints
and stores the certificate. -/
theorem getCertificate_cache_properties_witness :
    (getCertificate ⟨[], 1, 10⟩ 0 (fun _ => "CERT") ("a.b")).2.entries.length ≤ 1 ∧
    (getCertificate ⟨[], 1, 10⟩ 0 (fun _ => "CERT") ("a.b")).2.maxEntries = 1 ∧
    (∀ v, freshLookup ⟨[], 1, 10⟩ 0 ("a.b") = some v →
      (getCertificate ⟨[], 1, 10⟩ 0 (fun _ => "CERT") ("a.b")).1 = v) ∧
    (freshLookup ⟨[], 1, 10⟩ 0 ("a.b") = none →
      ∀ w, freshLookup ⟨[], 1, 10⟩ 0 (parentDomainOf ("a.b")) = some w →
        (getCertificate ⟨[], 1, 10⟩ 0 (fun _ => "CERT") ("a.b")).1 = w) ∧
    (freshLookup ⟨[], 1, 10⟩ 0 ("a.b") = none →
      freshLookup ⟨[], 1, 10⟩ 0 (parentDomainOf ("a.b")) = none →
        (getCertificate ⟨[], 1, 10⟩ 0 (fun _ => "CERT") ("a.b")).1 =
          (fun _ => "CERT") ("a.b") ∧
        freshLookup (getCertificate ⟨[], 1, 10⟩ 0
            (fun _ => "CERT") ("a.b")).2 0 ("a.b") =
          some ((fun _ => "CERT") ("a.b"))) :=
  getCertificate_cache_properties ⟨[], 1, 10⟩ 0 (fun _ => "CERT") ("a.b")
    (by decide) (by decide) (by decide) (by intro e he; cases he)

/-- C9 counterexample: when forwarding a non-CONNECT request fails with
an error carrying no status, onRequest writes 502 (not 599) to the
client, the same default as the CONNECT path. -/
theorem onRequest_status_counterexample :
    onRequestStatus (HttpOutcome.failure none) = 502 ∧
    onRequestStatus (HttpOutcome.failure none) ≠ 599 := by
  refine ⟨rfl, by decide⟩

/-- C9 amended: a failure of the HTTP path without a status of its own
yields 502, exactly as a CONNECT-path failure without a status; the
status 599 appears on the HTTP path only as the status written when a
forwarded response lacks a status code. -/
theorem onRequest_status_amended (errStatus : Option Nat) :
    onRequestStatus (HttpOutcome.failure errStatus) = errStatus.getD 502 ∧
    onConnectFailureStatus errStatus = errStatus.getD 502 ∧
    onRequestStatus (HttpOutcome.failure errStatus) =
      onConnectFailureStatus errStatus ∧
    onRequestStatus (HttpOutcome.success none) = 599 := by
  exact ⟨rfl, rfl, rfl, rfl⟩

/-- C10: the details of ProxyConnectionFailed and ProxyConnectionTimeout
contain the upstream with its password replaced by the mask, and two
constructions that differ only in the upstream password produce identical
details. -/
theorem errorDetails_password_masked (u : ProxyUpstream)
    (p₁ p₂ : Option String) (status : Nat) :
    (proxyConnectionFailedDetails u status).upstream.password = PASSWORD_MASK ∧
    (proxyConnectionTimeoutDetails (some u)).password = PASSWORD_MASK ∧
    proxyConnectionFailedDetails { u with password := p₁ } status =
      proxyConnectionFailedDetails { u with password := p₂ } status ∧
    proxyConnectionTimeoutDetails (some { u with password := p₁ }) =
      proxyConnectionTimeoutDetails (some { u with password := p₂ }) ∧
    (proxyConnectionFailedDetails u status).upstream =
      { host := some u.host, username := u.username,
        password := PASSWORD_MASK, useHttps := u.useHttps } ∧
    (proxyConnectionFailedDetails u status).status = status := by
  exact ⟨rfl, rfl, rfl, rfl, rfl, rfl⟩

end Uniproxy
